import Mathlib

/-!
Shallow embedding of the aura-lang build/release pipeline (Python sources
under src/), restricted to the parts the verified claims are about:

- tools/release/release.py : deterministic packager (zip_write_deterministic,
  the archive loop in main, repack_zip_deterministic, maybe_sign_windows)
- build_release.py : AuraBuilder.run_command (environment merging),
  AuraBuilder.ensure_jdk (toolchain resolution), AuraBuilder.generate_manifest,
  AuraBuilder.run_selected_steps
- setup_gradle_and_build_apk.py : GradleSetup.setup_and_build (the one place
  in the sources where a failing step, Build APK, aborts the remaining steps)

File contents are modelled as byte lists, paths as strings in POSIX form, and
filesystem or network probes as explicit boolean state, so every definition
is executable and the embedded control flow can be re-traced against the
Python line by line.
-/

/-- Code-point lexicographic comparison of character lists.  Python compares
strings exactly this way (by Unicode code point, case-sensitively), and it is
the comparison performed by list.sort over string keys in release.py:432 and
release.py:194.  It is written over String.data so that it evaluates inside
the kernel. -/
def lexLe : List Char → List Char → Bool
  | [], _ => true
  | _ :: _, [] => false
  | a :: as, b :: bs => if a < b then true else if b < a then false else lexLe as bs

namespace Release

/-- A regular file staged under the dist directory, as the packaging loop in
release.py main sees it: the zip arcname is the path relative to DIST_DIR in
POSIX form (release.py:432-434), the data are the raw bytes read by
zip_write_deterministic (release.py:155), and mode is the stat st_mode used
for the executable-bit test (release.py:163).  Filesystem mtimes are absent
from this record on purpose: zip_write_deterministic never reads them (it
builds a fresh ZipInfo instead of calling ZipFile.write), which is exactly
the mtime-independence under verification. -/
structure StagedFile where
  rel : String
  data : List Nat
  mode : Nat
deriving DecidableEq, Repr

/-- The earliest representable DOS timestamp, release.py:158. -/
def fixedDateTime : Nat × Nat × Nat × Nat × Nat × Nat := (1980, 1, 1, 0, 0, 0)

/-- One zip central-directory entry, keeping the fields release.py sets:
filename, date_time, external_attr, and the uncompressed payload. -/
structure ZipEntry where
  filename : String
  dateTime : Nat × Nat × Nat × Nat × Nat × Nat
  extAttr : Nat
  data : List Nat
deriving DecidableEq, Repr

/-- Embeds zip_write_deterministic (release.py:148-169): a fresh ZipInfo with
the fixed 1980 timestamp, permission 0o755 when any execute bit of the source
mode is set and 0o644 otherwise, stored shifted into the upper 16 bits of
external_attr. -/
def zip_write_deterministic (f : StagedFile) : ZipEntry :=
  let perm : Nat := if f.mode &&& 0o111 ≠ 0 then 0o755 else 0o644
  { filename := f.rel
    dateTime := fixedDateTime
    extAttr := (perm &&& 0xFFFF) <<< 16
    data := f.data }

/-- Sort relation of the packaging loop (release.py:432): compare the
relative POSIX path keys as Python compares strings. -/
def fileLe (a b : StagedFile) : Prop := lexLe a.rel.data b.rel.data = true

instance : DecidableRel fileLe :=
  fun a b => inferInstanceAs (Decidable (lexLe a.rel.data b.rel.data = true))

/-- Embeds the archive loop of release.py main (release.py:430-435): sort the
staged files by relative POSIX path and write each with
zip_write_deterministic.  Python list.sort is a stable sort; insertionSort is
also stable, and a stable sort's output is uniquely determined by the input
order and the comparison, so the two agree. -/
def buildArchive (files : List StagedFile) : List ZipEntry :=
  (files.insertionSort fileLe).map zip_write_deterministic

/-- ZipInfo.is_dir in the Python standard library: the entry name ends with
a forward slash, that is, its last character is the slash.  Written over the
character list so that it evaluates inside the kernel. -/
def zipIsDir (e : ZipEntry) : Bool := e.filename.data.getLast? == some '/'

/-- ZipFile.read(name) resolves the name through NameToInfo, which is built
by inserting every central-directory entry in order, so a later entry with
the same name overwrites an earlier one: read returns the data of the last
entry carrying that name.  A missing name raises in Python; it is modelled
as an empty payload and is unreachable from repack below. -/
def zipRead (entries : List ZipEntry) (name : String) : List Nat :=
  match (entries.filter (fun e => e.filename == name)).getLast? with
  | some e => e.data
  | none => []

/-- Sort relation of repack (release.py:194): compare the filename keys. -/
def entryLe (a b : ZipEntry) : Prop := lexLe a.filename.data b.filename.data = true

instance : DecidableRel entryLe :=
  fun a b => inferInstanceAs (Decidable (lexLe a.filename.data b.filename.data = true))

/-- Embeds repack_zip_deterministic (release.py:183-207): list all entries,
sort them by filename, drop directory entries, and rewrite each kept entry
with the fixed 1980 timestamp, its original external_attr, and the payload
obtained by reading its filename from the source archive. -/
def repack_zip_deterministic (entries : List ZipEntry) : List ZipEntry :=
  ((entries.insertionSort entryLe).filter (fun i => !(zipIsDir i))).map
    (fun i =>
      { filename := i.filename
        dateTime := fixedDateTime
        extAttr := i.extAttr
        data := zipRead entries i.filename })

/-- The staging scenario of the C1 claim: files a.txt, B.txt and sub/c.bin
inside the AuraSDK staging directory; arcnames are relative to DIST_DIR, so
they carry the AuraSDK/ prefix (release.py:434). -/
def c1Files : List StagedFile :=
  [⟨"AuraSDK/a.txt", [], 0o644⟩, ⟨"AuraSDK/B.txt", [], 0o644⟩,
   ⟨"AuraSDK/sub/c.bin", [], 0o644⟩]

/-- A legal zip archive holding two non-directory entries with the same name
but different payloads; used to separate read-by-name from per-entry data. -/
def dupEntries : List ZipEntry :=
  [⟨"x", (2020, 5, 6, 7, 8, 9), 1, [1]⟩, ⟨"x", (2021, 5, 6, 7, 8, 10), 2, [2]⟩]

/-- A zip archive with unique names: one directory entry and one regular
entry, as a bundler typically produces. -/
def mixedEntries : List ZipEntry :=
  [⟨"docs/", (2001, 2, 3, 4, 5, 6), 7, []⟩, ⟨"b.txt", (2002, 2, 3, 4, 5, 6), 8, [5]⟩]

/-- Concrete staged tree for the determinism witness, in one enumeration
order. -/
def c4FilesA : List StagedFile :=
  [⟨"AuraSDK/bin/aura", [7, 7], 0o755⟩, ⟨"AuraSDK/docs/readme.md", [1], 0o644⟩]

/-- The same staged tree in the opposite enumeration order. -/
def c4FilesB : List StagedFile :=
  [⟨"AuraSDK/docs/readme.md", [1], 0o644⟩, ⟨"AuraSDK/bin/aura", [7, 7], 0o755⟩]

/-- Python truthiness of an optional environment string: absent and empty
both count as false, matching the bare if thumb / elif pfx tests at
release.py:78 and release.py:92. -/
def truthy : Option String → Bool
  | none => false
  | some s => !s.data.isEmpty

/-- The AURA_SIGN_* environment slice read by maybe_sign_windows
(release.py:71-76). -/
structure SignEnv where
  signtool : Option String
  timestampUrl : Option String
  thumbprint : Option String
  pfx : Option String
  pfxPassword : Option String
deriving DecidableEq, Repr

/-- Observable outcome of maybe_sign_windows: each early return, the
launched signtool command, or the SystemExit configuration error. -/
inductive SignOutcome where
  | skippedDisabled
  | skippedNotWindows
  | skippedMissingArtifact
  | ranSigntool (cmd : List String)
  | configError (msg : String)
deriving DecidableEq, Repr

/-- True exactly when the outcome is the raised configuration error. -/
def SignOutcome.isConfigError : SignOutcome → Bool
  | .configError _ => true
  | _ => false

/-- True exactly when the outcome launches an external process. -/
def SignOutcome.launchesProcess : SignOutcome → Bool
  | .ranSigntool _ => true
  | _ => false

/-- Embeds maybe_sign_windows (release.py:62-115).  The guards are taken in
source order: signing disabled, os.name different from nt, missing artifact,
then the thumbprint / pfx / error branches.  Note that on a non-Windows host
the function prints a skip message and returns before ever looking at the
credentials. -/
def maybe_sign_windows (path : String) (enabled : Bool) (isWindowsNt : Bool)
    (pathExists : Bool) (env : SignEnv) : SignOutcome :=
  if !enabled then .skippedDisabled
  else if !isWindowsNt then .skippedNotWindows
  else if !pathExists then .skippedMissingArtifact
  else
    let signtool := env.signtool.getD "signtool"
    let tsUrl := env.timestampUrl.getD "http://timestamp.digicert.com"
    if truthy env.thumbprint then
      .ranSigntool [signtool, "sign", "/sha1", env.thumbprint.getD "", "/fd", "sha256",
        "/tr", tsUrl, "/td", "sha256", path]
    else if truthy env.pfx then
      match env.pfxPassword with
      | none => .configError "AURA_SIGN_PFX_PASSWORD is required when using AURA_SIGN_PFX"
      | some pw =>
        .ranSigntool [signtool, "sign", "/f", env.pfx.getD "", "/p", pw, "/fd", "sha256",
          "/tr", tsUrl, "/td", "sha256", path]
    else
      .configError "--sign requires either AURA_SIGN_THUMBPRINT (cert store) or AURA_SIGN_PFX + AURA_SIGN_PFX_PASSWORD"

/-- Signing environment with no credentials at all. -/
def emptySignEnv : SignEnv := ⟨none, none, none, none, none⟩

end Release

namespace BuildRelease

/-- An environment as Python sees os.environ and the merged child
environment: an insertion-ordered mapping, modelled as an association list
whose lookup returns the first (hence, with unique keys, the) binding. -/
def lookupEnv : List (String × String) → String → Option String
  | [], _ => none
  | p :: rest, k => if p.1 = k then some p.2 else lookupEnv rest k

/-- Dictionary assignment d[k] = v: replace the binding in place when the
key is present, append it at the end otherwise (Python dicts preserve
insertion order). -/
def setKey : List (String × String) → String → String → List (String × String)
  | [], k, v => [(k, v)]
  | p :: rest, k, v => if p.1 = k then (k, v) :: rest else p :: setKey rest k v

/-- dict.update over a list of items, skipping items whose value is None,
exactly the comprehension at build_release.py:88. -/
def dictUpdate (e : List (String × String)) (items : List (String × Option String)) :
    List (String × String) :=
  items.foldl
    (fun acc kv =>
      match kv.2 with
      | some v => setKey acc kv.1 v
      | none => acc)
    e

/-- The merged child environment built by run_command
(build_release.py:86-88): a copy of the ambient environment, updated with
the non-None overrides. -/
def merged_env (ambient : List (String × String))
    (overrides : List (String × Option String)) : List (String × String) :=
  dictUpdate ambient overrides

/-- The environment effect of one run_command call (build_release.py:64-98):
the child process receives merged_env, and the ambient environment object is
only read through os.environ.copy(), never written, so it comes back
unchanged.  Process launching, timeout and output capture do not touch
either environment and are not modelled. -/
def run_command (ambient : List (String × String))
    (overrides : List (String × Option String)) :
    List (String × String) × List (String × String) :=
  (merged_env ambient overrides, ambient)

/-- The last non-None value an override list supplies for a key; this is the
value a Python dict built from those items would hold at that key. -/
def lastOverride : List (String × Option String) → String → Option String
  | [], _ => none
  | p :: rest, k =>
    match lastOverride rest k with
    | some v => some v
    | none => if p.1 = k then p.2 else none

/-- A small concrete ambient environment for the run_command witness. -/
def c9Ambient : List (String × String) := [("PATH", "/usr/bin"), ("HOME", "/root")]

/-- Concrete overrides: PATH collides with the ambient environment, one key
is fresh, and one carries the None that run_command filters out. -/
def c9Overrides : List (String × Option String) :=
  [("PATH", some "/opt/jdk/bin"), ("JAVA_HOME", some "/opt/jdk"), ("DROPPED", none)]

/-- Result of one pipeline step action: returned True, returned False, or
raised an exception with a message. -/
inductive StepResult where
  | ok
  | fail
  | exn (msg : String)
deriving DecidableEq, Repr

/-- The step keys run_selected_steps recognizes (build_release.py:1138-1150). -/
def stepKeys : List String :=
  ["core", "sentinel", "android", "apk", "apk-package", "verify", "dist",
   "manifest", "docs", "roadmap", "reorg-root"]

/-- Display name of each step key, from the step_map values. -/
def displayName : String → String
  | "core" => "Aura Core"
  | "sentinel" => "Sentinel IDE"
  | "android" => "Android Setup"
  | "apk" => "Android APK"
  | "apk-package" => "APK Packaging"
  | "verify" => "Binary Verification"
  | "dist" => "Distribution Creation"
  | "manifest" => "Manifest Generation"
  | "docs" => "Docs Aggregate"
  | "roadmap" => "Roadmap Restructure"
  | "reorg-root" => "Reorg Root"
  | _ => ""

/-- Run state accumulated by run_selected_steps: the failed_steps list fed
by _step_failed, the ghost trace of step actions that were actually invoked,
and the failed_count local counter.  Only failedCount flows into the exit
status (build_release.py:1175). -/
structure RunState where
  failedSteps : List (String × String)
  executed : List String
  failedCount : Nat
deriving DecidableEq, Repr

/-- Selection resolution loop (build_release.py:1152-1158): unknown keys are
recorded through _step_failed("args", ...) and skipped; known keys are kept
in order.  The failed_count counter is not touched here. -/
def resolveSelection (selected : List String) :
    List (String × String) × List String :=
  selected.foldl
    (fun acc key =>
      if stepKeys.contains key then (acc.1, acc.2 ++ [displayName key])
      else (acc.1 ++ [("args", "Unknown step: " ++ key)], acc.2))
    ([], [])

/-- Main step loop (build_release.py:1160-1170): every resolved step runs;
a False return or an exception appends to failed_steps and increments
failed_count; there is no early stop. -/
def runOrdered (results : String → StepResult) (ordered : List String)
    (st : RunState) : RunState :=
  ordered.foldl
    (fun st name =>
      match results name with
      | .ok => { st with executed := st.executed ++ [name] }
      | .fail =>
        { st with
          executed := st.executed ++ [name]
          failedSteps := st.failedSteps ++ [(name, "Step returned False")]
          failedCount := st.failedCount + 1 }
      | .exn m =>
        { st with
          executed := st.executed ++ [name]
          failedSteps := st.failedSteps ++ [(name, m)]
          failedCount := st.failedCount + 1 })
    st

/-- Embeds run_selected_steps (build_release.py:1132-1175), parameterized by
the outcome each step action would produce.  Returns the final run state and
the exit status, which is 0 exactly when failed_count is 0. -/
def run_selected_steps (results : String → StepResult) (selected : List String) :
    RunState × Nat :=
  let resolved := resolveSelection selected
  let st := runOrdered results resolved.2 ⟨resolved.1, [], 0⟩
  (st, if st.failedCount == 0 then 0 else 1)

/-- A file met by the os.walk loop of generate_manifest: its path relative
to dist-release, decomposed into path components (never empty for a real
file: the last component is the file name), and its size in bytes. -/
structure WalkedFile where
  parts : List String
  size : Nat
deriving DecidableEq, Repr

/-- Category assignment of generate_manifest (build_release.py:1048):
rel_path.parts[0] if rel_path.parts else "root". -/
def category : List String → String
  | [] => "root"
  | p :: _ => p

/-- One record of the manifest components mapping (build_release.py:1052). -/
structure ManifestRecord where
  category : String
  file : String
  sizeBytes : Nat
deriving DecidableEq, Repr

/-- Embeds the collection loop of generate_manifest
(build_release.py:1042-1056): for every walked file, record its category,
its slash-joined relative path, and its size in bytes. -/
def generate_manifest (files : List WalkedFile) : List ManifestRecord :=
  files.map (fun f => ⟨category f.parts, String.intercalate "/" f.parts, f.size⟩)

/-- State read and written by ensure_jdk: the environment variables it
consults, the outcome of each probe it can make (all booleans, standing for
the filesystem, PATH, network and winget conditions at this point of the
run), plus the on-disk caches under .tools/ and the in-memory
self.java_home field. -/
structure JdkState where
  envJavaHome : Option String
  javaHomeHasJava : Bool
  whichJava : Bool
  auraJdkUrl : Option String
  downloadOk : String → Bool
  isWindowsNt : Bool
  whichWinget : Bool
  wingetOk : Bool
  wingetInstallsJava : Bool
  zipCached : Bool
  rootExtracted : Bool
  extractOk : Bool
  extractedHasJava : Bool
  javaHome : Option String

/-- The three hard-coded JDK download URLs (build_release.py:169-176); the
AURA_JDK_URL override, when present, is tried first. -/
def fixedJdkUrls : List String :=
  ["https://api.adoptium.net/v3/binary/latest/17/ga/windows/x64/jdk/hotspot/normal/eclipse",
   "https://aka.ms/download-jdk/microsoft-jdk-17.0.10-windows-x64.zip",
   "https://aka.ms/download-jdk/microsoft-jdk-17.0.9-windows-x64.zip"]

/-- Install directory of the bootstrapped JDK, .tools/jdk-17. -/
def jdkRootPath : String := ".tools/jdk-17"

/-- Result of one ensure_jdk call: the returned boolean, the state after the
call, and how many acquisition probes (environment variable, PATH, download,
winget, extraction) the call performed. -/
structure JdkRun where
  ok : Bool
  state : JdkState
  attempts : Nat

/-- Index of the first true in a list, used for the first download URL that
succeeds in the loop at build_release.py:186-198. -/
def firstTrue : List Bool → Option Nat
  | [] => none
  | b :: rest => if b then some 0 else (firstTrue rest).map (· + 1)

/-- Final java.exe check of ensure_jdk (build_release.py:232-238): if the
extracted root holds bin/java.exe, set self.java_home to it and succeed;
otherwise the RuntimeError is caught at build_release.py:239-241 and the
call fails. -/
def checkJavaBin (s : JdkState) (att : Nat) : JdkRun :=
  if s.extractedHasJava then ⟨true, { s with javaHome := some jdkRootPath }, att⟩
  else ⟨false, s, att⟩

/-- Extraction stage of ensure_jdk (build_release.py:214-230): skip when
.tools/jdk-17 already exists, otherwise extract the cached zip (one more
acquisition attempt), failure being caught as above. -/
def finishExtract (s : JdkState) (base : Nat) : JdkRun :=
  if s.rootExtracted then checkJavaBin s base
  else if s.extractOk then checkJavaBin { s with rootExtracted := true } (base + 1)
  else ⟨false, s, base + 1⟩

/-- Embeds ensure_jdk (build_release.py:146-241).  Probe order: the
JAVA_HOME environment variable (accept when its bin/java exists, setting
self.java_home), then java on PATH (accept without setting self.java_home),
then the cached or freshly downloaded zip, the winget fallback when every
download fails, extraction, and the final java.exe check.  Every call starts
from the top: the function keeps no memoization guard on self.java_home. -/
def ensure_jdk (s : JdkState) : JdkRun :=
  if s.envJavaHome.isSome && s.javaHomeHasJava then
    ⟨true, { s with javaHome := s.envJavaHome }, 1⟩
  else if s.whichJava then ⟨true, s, 2⟩
  else
    let cands := (match s.auraJdkUrl with | some u => [u] | none => []) ++ fixedJdkUrls
    if s.zipCached then finishExtract s 2
    else
      match firstTrue (cands.map s.downloadOk) with
      | some i => finishExtract { s with zipCached := true } (2 + (i + 1))
      | none =>
        if s.isWindowsNt && s.whichWinget then
          let s2 := if s.wingetOk then { s with whichJava := s.wingetInstallsJava } else s
          if s.wingetOk && s.wingetInstallsJava then ⟨true, s2, 2 + cands.length + 1⟩
          else ⟨false, s2, 2 + cands.length + 1⟩
        else ⟨false, s, 2 + cands.length⟩

/-- A run state in which JAVA_HOME points at a valid JDK and nothing else
would succeed: the first acquisition candidate wins immediately. -/
def jdkEnvState : JdkState :=
  { envJavaHome := some "/opt/jdk17"
    javaHomeHasJava := true
    whichJava := false
    auraJdkUrl := none
    downloadOk := fun _ => false
    isWindowsNt := true
    whichWinget := false
    wingetOk := false
    wingetInstallsJava := false
    zipCached := false
    rootExtracted := false
    extractOk := false
    extractedHasJava := false
    javaHome := none }

end BuildRelease

namespace GradleSetup

/-- How one executed step of setup_and_build completed.  The skipped
constructor exists so the claimed "recorded as Skipped" status is statable;
the embedded code never produces it, because setup_and_build records nothing
for steps it abandons after the Build APK break
(setup_gradle_and_build_apk.py:240-258). -/
inductive StepOutcome where
  | ranOk
  | ranFail
  | ranExn (msg : String)
  | skipped
deriving DecidableEq, Repr

/-- The fixed step list of setup_and_build
(setup_gradle_and_build_apk.py:229-236). -/
def gradleSteps : List String :=
  ["Download Gradle", "Extract Gradle", "Generate Wrapper", "Verify Wrapper",
   "Build APK", "Copy to Distribution"]

/-- The step loop of setup_and_build (setup_gradle_and_build_apk.py:240-258):
run each step in order; on a False return or an exception, count the failure
and continue, except for the step named Build APK, where the loop breaks.
Returns the recorded outcomes of the steps that ran and the failure count. -/
def runSteps (results : String → BuildRelease.StepResult) :
    List String → List (String × StepOutcome) × Nat
  | [] => ([], 0)
  | name :: rest =>
    match results name with
    | .ok =>
      let r := runSteps results rest
      ((name, .ranOk) :: r.1, r.2)
    | .fail =>
      if name == "Build APK" then ([(name, .ranFail)], 1)
      else
        let r := runSteps results rest
        ((name, .ranFail) :: r.1, r.2 + 1)
    | .exn m =>
      if name == "Build APK" then ([(name, .ranExn m)], 1)
      else
        let r := runSteps results rest
        ((name, .ranExn m) :: r.1, r.2 + 1)

/-- Whole-run record of setup_and_build: what each executed step recorded,
the failure count, and the returned exit status
(setup_gradle_and_build_apk.py:265-271). -/
structure BuildRun where
  outcomes : List (String × StepOutcome)
  failedCount : Nat
  exitCode : Nat
deriving DecidableEq, Repr

/-- Embeds setup_and_build (setup_gradle_and_build_apk.py:223-271),
parameterized by the outcome of each step action. -/
def setup_and_build (results : String → BuildRelease.StepResult) : BuildRun :=
  let r := runSteps results gradleSteps
  ⟨r.1, r.2, if r.2 == 0 then 0 else 1⟩

/-- A run in which every step works except Build APK, which fails. -/
def apkFailResults : String → BuildRelease.StepResult :=
  fun name => if name == "Build APK" then .fail else .ok

end GradleSetup

/-! General facts about the code-point lexicographic comparison, and the
uniqueness of sorted permutations under an asymmetric ordering. -/

theorem lexLe_total : ∀ a b : List Char, lexLe a b = true ∨ lexLe b a = true
  | [], _ => Or.inl rfl
  | _ :: _, [] => Or.inr rfl
  | a :: as, b :: bs => by
    by_cases h1 : a < b
    · left; simp [lexLe, h1]
    · by_cases h2 : b < a
      · right; simp [lexLe, h2]
      · rcases lexLe_total as bs with h | h
        · left; simp [lexLe, h1, h2, h]
        · right; simp [lexLe, h1, h2, h]

theorem lexLe_trans : ∀ a b c : List Char,
    lexLe a b = true → lexLe b c = true → lexLe a c = true
  | [], _, _, _, _ => rfl
  | _ :: _, [], _, h, _ => by simp [lexLe] at h
  | _ :: _, _ :: _, [], _, h2 => by simp [lexLe] at h2
  | a :: as, b :: bs, c :: cs, h1, h2 => by
    by_cases hab : a < b
    · have hbc : ¬ c < b := by
        intro hcb
        have hbc' : ¬ b < c := asymm hcb
        simp [lexLe, hbc', hcb] at h2
      by_cases hbc2 : b < c
      · simp [lexLe, lt_trans hab hbc2]
      · have hbceq : b = c := le_antisymm (not_lt.mp hbc) (not_lt.mp hbc2)
        subst hbceq
        simp [lexLe, hab]
    · have hba : ¬ b < a := by
        intro hba
        simp [lexLe, hab, hba] at h1
      have heq : a = b := le_antisymm (not_lt.mp hba) (not_lt.mp hab)
      subst heq
      have h1' : lexLe as bs = true := by simpa [lexLe, lt_irrefl] using h1
      by_cases hac : a < c
      · simp [lexLe, hac]
      · have hca : ¬ c < a := by
          intro hca
          simp [lexLe, hac, hca] at h2
        have h2' : lexLe bs cs = true := by simpa [lexLe, hac, hca] using h2
        simp [lexLe, hac, hca, lexLe_trans as bs cs h1' h2']

theorem lexLe_antisymm : ∀ a b : List Char,
    lexLe a b = true → lexLe b a = true → a = b
  | [], [], _, _ => rfl
  | [], _ :: _, _, h2 => by simp [lexLe] at h2
  | _ :: _, [], h1, _ => by simp [lexLe] at h1
  | a :: as, b :: bs, h1, h2 => by
    by_cases hab : a < b
    · have hba : ¬ b < a := asymm hab
      simp [lexLe, hba, hab] at h2
    · by_cases hba : b < a
      · simp [lexLe, hab, hba] at h1
      · have heq : a = b := le_antisymm (not_lt.mp hba) (not_lt.mp hab)
        subst heq
        have h1' : lexLe as bs = true := by simpa [lexLe, lt_irrefl] using h1
        have h2' : lexLe bs as = true := by simpa [lexLe, lt_irrefl] using h2
        rw [lexLe_antisymm as bs h1' h2']

/-- Two lists that are permutations of each other and both pairwise-ordered
by an asymmetric relation are equal. -/
theorem perm_pairwise_asymm_eq {α : Type} {r : α → α → Prop}
    (hasymm : ∀ a b, r a b → r b a → False) :
    ∀ {l₁ l₂ : List α}, l₁.Perm l₂ → l₁.Pairwise r → l₂.Pairwise r → l₁ = l₂ := by
  intro l₁
  induction l₁ with
  | nil =>
    intro l₂ hp _ _
    cases l₂ with
    | nil => rfl
    | cons b t₂ => exact absurd hp.length_eq (by simp)
  | cons a t ih =>
    intro l₂ hp h₁ h₂
    cases l₂ with
    | nil => exact absurd hp.length_eq (by simp)
    | cons b t₂ =>
      rcases eq_or_ne a b with rfl | hne
      · rw [ih hp.cons_inv h₁.tail h₂.tail]
      · have ha : a ∈ t₂ := by
          have h := hp.mem_iff.mp (List.mem_cons_self a t)
          simpa [hne] using h
        have hb : b ∈ t := by
          have h := hp.mem_iff.mpr (List.mem_cons_self b t₂)
          simpa [hne.symm] using h
        have hr1 : r a b := (List.pairwise_cons.mp h₁).1 b hb
        have hr2 : r b a := (List.pairwise_cons.mp h₂).1 a ha
        exact (hasymm a b hr1 hr2).elim

namespace Release

theorem fileLe_total (a b : StagedFile) : fileLe a b ∨ fileLe b a :=
  lexLe_total a.rel.data b.rel.data

theorem fileLe_trans (a b c : StagedFile) : fileLe a b → fileLe b c → fileLe a c :=
  lexLe_trans a.rel.data b.rel.data c.rel.data

theorem entryLe_total (a b : ZipEntry) : entryLe a b ∨ entryLe b a :=
  lexLe_total a.filename.data b.filename.data

theorem entryLe_trans (a b c : ZipEntry) : entryLe a b → entryLe b c → entryLe a c :=
  lexLe_trans a.filename.data b.filename.data c.filename.data

theorem sorted_files (l : List StagedFile) :
    (l.insertionSort fileLe).Pairwise fileLe :=
  @List.sorted_insertionSort StagedFile fileLe _ ⟨fileLe_total⟩ ⟨fileLe_trans⟩ l

theorem sorted_entries (l : List ZipEntry) :
    (l.insertionSort entryLe).Pairwise entryLe :=
  @List.sorted_insertionSort ZipEntry entryLe _ ⟨entryLe_total⟩ ⟨entryLe_trans⟩ l

/-- Sorting is insensitive to the enumeration order of the input as long as
the sort keys are distinct, which holds for distinct paths of one tree. -/
theorem insertionSort_eq_of_perm (l₁ l₂ : List StagedFile) (hp : l₁.Perm l₂)
    (hn : (l₁.map StagedFile.rel).Nodup) :
    l₁.insertionSort fileLe = l₂.insertionSort fileLe := by
  have hn₂ : (l₂.map StagedFile.rel).Nodup := ((hp.map StagedFile.rel).nodup_iff).mp hn
  have key : ∀ (l : List StagedFile), (l.map StagedFile.rel).Nodup →
      (l.insertionSort fileLe).Pairwise (fun a b => fileLe a b ∧ a.rel ≠ b.rel) := by
    intro l hnl
    have hs := sorted_files l
    have hd : (l.insertionSort fileLe).Pairwise (fun a b => a.rel ≠ b.rel) := by
      have hmap : ((l.insertionSort fileLe).map StagedFile.rel).Nodup :=
        ((List.perm_insertionSort fileLe l).map StagedFile.rel).nodup_iff.mpr hnl
      simpa [List.Nodup, List.pairwise_map] using hmap
    exact hs.and hd
  refine perm_pairwise_asymm_eq ?_ ?_ (key l₁ hn) (key l₂ hn₂)
  · intro a b h1 h2
    exact h1.2 (String.ext (lexLe_antisymm _ _ h1.1 h2.1))
  · exact (List.perm_insertionSort fileLe l₁).trans
      (hp.trans (List.perm_insertionSort fileLe l₂).symm)

/-- ZipFile.read returns d whenever every entry carrying the name has
payload d and at least one entry carries it. -/
theorem zipRead_const (R : List ZipEntry) (n : String) (d : List Nat)
    (hall : ∀ x ∈ R, x.filename = n → x.data = d)
    (hex : ∃ x ∈ R, x.filename = n) : zipRead R n = d := by
  rcases hex with ⟨x, hxR, hxn⟩
  have hmem : x ∈ R.filter (fun e => e.filename == n) :=
    List.mem_filter.mpr ⟨hxR, by simp [hxn]⟩
  have hne : R.filter (fun e => e.filename == n) ≠ [] := List.ne_nil_of_mem hmem
  unfold zipRead
  rcases hlast : (R.filter (fun e => e.filename == n)).getLast? with _ | y
  · exact absurd (List.getLast?_eq_none_iff.mp hlast) hne
  · have hy := List.mem_of_getLast?_eq_some hlast
    have hy' := List.mem_filter.mp hy
    have hyn : y.filename = n := by simpa using hy'.2
    rw [hlast]
    exact hall y hy'.1 hyn

/-- ZipFile.read at the name of a member entry returns that entry's own
payload whenever entry names are unique. -/
theorem zipRead_nodup : ∀ (entries : List ZipEntry),
    ((entries.map ZipEntry.filename).Nodup) → ∀ i ∈ entries,
    zipRead entries i.filename = i.data := by
  intro entries
  induction entries with
  | nil => intro _ i hi; cases hi
  | cons e rest ih =>
    intro hn i hi
    have hcons : e.filename ∉ rest.map ZipEntry.filename ∧
        (rest.map ZipEntry.filename).Nodup := by
      rw [List.map_cons] at hn
      exact List.nodup_cons.mp hn
    rcases List.mem_cons.mp hi with rfl | hirest
    · have hfil : rest.filter (fun x => x.filename == i.filename) = [] := by
        refine List.filter_eq_nil_iff.mpr ?_
        intro x hx
        simp only [beq_iff_eq]
        intro hEq
        exact hcons.1 (hEq ▸ List.mem_map_of_mem ZipEntry.filename hx)
      simp [zipRead, List.filter_cons, hfil]
    · have hne2 : e.filename ≠ i.filename := fun hEq =>
        hcons.1 (hEq ▸ List.mem_map_of_mem ZipEntry.filename hirest)
      have hstep : zipRead (e :: rest) i.filename = zipRead rest i.filename := by
        simp [zipRead, List.filter_cons, hne2]
      rw [hstep]
      exact ih hcons.2 i hirest

end Release

namespace Release

/-- C1: the claim asserts that the packager and repack order entries by a
case-insensitive sort of the relative path, putting a.txt before B.txt.  The
code sorts case-sensitively (plain string comparison of the POSIX relative
path at release.py:432), so B.txt comes first: the claimed order is refuted
on the very scenario the claim names. -/
theorem c1_counterexample :
    (buildArchive c1Files).map ZipEntry.filename
        = ["AuraSDK/B.txt", "AuraSDK/a.txt", "AuraSDK/sub/c.bin"] ∧
    (buildArchive c1Files).map ZipEntry.filename
        ≠ ["AuraSDK/a.txt", "AuraSDK/B.txt", "AuraSDK/sub/c.bin"] := by decide

/-- C1 (amended): the packager enumerates the staged files and writes
entries sorted by the relative POSIX path in code-point (case-sensitive)
order, so for the input files a.txt, B.txt, sub/c.bin the entries appear in
the order B.txt, a.txt, sub/c.bin; the repack operation orders entries by
the same case-sensitive comparison of the raw entry filename. -/
theorem c1_entry_order :
    (∀ files : List StagedFile,
      ((buildArchive files).map ZipEntry.filename).Pairwise
        (fun a b => lexLe a.data b.data = true)) ∧
    (buildArchive c1Files).map ZipEntry.filename
        = ["AuraSDK/B.txt", "AuraSDK/a.txt", "AuraSDK/sub/c.bin"] ∧
    (∀ entries : List ZipEntry,
      ((repack_zip_deterministic entries).map ZipEntry.filename).Pairwise
        (fun a b => lexLe a.data b.data = true)) := by
  refine ⟨?_, by decide, ?_⟩
  · intro files
    unfold buildArchive
    rw [List.map_map]
    exact (sorted_files files).map _ (fun a b h => h)
  · intro entries
    unfold repack_zip_deterministic
    rw [List.map_map]
    exact (((sorted_entries entries).filter _).map _ (fun a b h => h))

/-- C4: over any two enumerations of the same staged content (same relative
paths, bytes and modes; distinct paths as in a real tree), the packager
produces the identical entry sequence, every entry carrying the fixed
timestamp (1980,1,1,0,0,0) and the explicit permission 0o755 or 0o644
according to the source executable bit, so the archive depends on neither
enumeration order, nor mtimes, nor the clock. -/
theorem packager_deterministic (l₁ l₂ : List StagedFile) (hp : l₁.Perm l₂)
    (hn : (l₁.map StagedFile.rel).Nodup) :
    buildArchive l₁ = buildArchive l₂ ∧
    ∀ e ∈ buildArchive l₁, ∃ f, f ∈ l₁ ∧ e = zip_write_deterministic f ∧
      e.dateTime = (1980, 1, 1, 0, 0, 0) ∧
      e.extAttr = (if f.mode &&& 0o111 ≠ 0 then 0o755 else 0o644) <<< 16 := by
  constructor
  · unfold buildArchive
    rw [insertionSort_eq_of_perm l₁ l₂ hp hn]
  · intro e he
    unfold buildArchive at he
    rcases List.mem_map.mp he with ⟨f, hf, rfl⟩
    refine ⟨f, ((List.perm_insertionSort fileLe l₁).mem_iff).mp hf, rfl, rfl, ?_⟩
    unfold zip_write_deterministic
    by_cases hm : f.mode &&& 0o111 ≠ 0
    · simp only [if_pos hm]
      decide
    · simp only [if_neg hm]
      decide

/-- C4 witness: the two-file staged tree in both enumeration orders. -/
theorem packager_deterministic_witness :
    (c4FilesA.Perm c4FilesB ∧ (c4FilesA.map StagedFile.rel).Nodup) ∧
    (buildArchive c4FilesA = buildArchive c4FilesB ∧
     ∀ e ∈ buildArchive c4FilesA, ∃ f, f ∈ c4FilesA ∧
       e = zip_write_deterministic f ∧
       e.dateTime = (1980, 1, 1, 0, 0, 0) ∧
       e.extAttr = (if f.mode &&& 0o111 ≠ 0 then 0o755 else 0o644) <<< 16) :=
  ⟨⟨by decide, by decide⟩,
   packager_deterministic c4FilesA c4FilesB (by decide) (by decide)⟩

/-- C5: repacking is idempotent: repacking the output of a repack yields
exactly the same archive as repacking once, for every input archive. -/
theorem repack_idempotent (entries : List ZipEntry) :
    repack_zip_deterministic (repack_zip_deterministic entries)
      = repack_zip_deterministic entries := by
  set R := repack_zip_deterministic entries with hR
  have hmemR : ∀ e ∈ R, ∃ i : ZipEntry,
      e = ⟨i.filename, fixedDateTime, i.extAttr, zipRead entries i.filename⟩ ∧
      zipIsDir i = false := by
    intro e he
    rw [hR] at he
    unfold repack_zip_deterministic at he
    rcases List.mem_map.mp he with ⟨i, hi, rfl⟩
    exact ⟨i, rfl, by simpa using (List.mem_filter.mp hi).2⟩
  have hsR : R.Pairwise entryLe := by
    rw [hR]
    unfold repack_zip_deterministic
    exact (((sorted_entries entries).filter _).map _ (fun a b h => h))
  have hsort : R.insertionSort entryLe = R := List.Sorted.insertionSort_eq hsR
  have hnd : ∀ e ∈ R, (!(zipIsDir e)) = true := by
    intro e he
    rcases hmemR e he with ⟨i, rfl, hdir⟩
    simpa [zipIsDir] using hdir
  have hfilR : R.filter (fun i => !(zipIsDir i)) = R := List.filter_eq_self.mpr hnd
  have hdata : ∀ e ∈ R, zipRead R e.filename = e.data := by
    intro e he
    refine zipRead_const R e.filename e.data ?_ ⟨e, he, rfl⟩
    intro x hx hxfn
    rcases hmemR x hx with ⟨i, rfl, _⟩
    rcases hmemR e he with ⟨j, rfl, _⟩
    simpa using congrArg (zipRead entries) hxfn
  have hstep : repack_zip_deterministic R
      = R.map (fun i => ⟨i.filename, fixedDateTime, i.extAttr, zipRead R i.filename⟩) := by
    unfold repack_zip_deterministic
    rw [hsort, hfilR]
  rw [hstep]
  have hid : ∀ e ∈ R,
      (⟨e.filename, fixedDateTime, e.extAttr, zipRead R e.filename⟩ : ZipEntry) = e := by
    intro e he
    have hd := hdata e he
    rcases hmemR e he with ⟨i, rfl, _⟩
    simp_all
  calc R.map (fun i => (⟨i.filename, fixedDateTime, i.extAttr, zipRead R i.filename⟩ : ZipEntry))
      = R.map id := List.map_congr_left hid
    _ = R := List.map_id R

/-- C10: the claim asserts repack preserves each kept entry's uncompressed
content.  The code reads the payload by entry name (release.py:199), which
resolves to the last entry bearing that name, so in an archive with two
same-named entries the first kept entry is written with the second one's
bytes, not its own. -/
theorem repack_dup_counterexample :
    repack_zip_deterministic dupEntries
        = [⟨"x", fixedDateTime, 1, [2]⟩, ⟨"x", fixedDateTime, 2, [2]⟩] ∧
    repack_zip_deterministic dupEntries
        ≠ [⟨"x", fixedDateTime, 1, [1]⟩, ⟨"x", fixedDateTime, 2, [2]⟩] := by decide

/-- C10 (amended): for every input zip archive whose entry names are
distinct, repack drops directory entries and keeps exactly the
non-directory entries, preserving each kept entry's name, uncompressed byte
content, and external attribute bits, while replacing its timestamp with
the fixed value (1980,1,1,0,0,0); with duplicate names the written content
is that of the last entry bearing the name. -/
theorem repack_entries_spec (entries : List ZipEntry)
    (hn : (entries.map ZipEntry.filename).Nodup) (e : ZipEntry) :
    e ∈ repack_zip_deterministic entries ↔
      ∃ i, i ∈ entries ∧ zipIsDir i = false ∧
        e = ⟨i.filename, fixedDateTime, i.extAttr, i.data⟩ := by
  constructor
  · intro he
    unfold repack_zip_deterministic at he
    rcases List.mem_map.mp he with ⟨i, hi, rfl⟩
    have hmf := List.mem_filter.mp hi
    have hient : i ∈ entries :=
      ((List.perm_insertionSort entryLe entries).mem_iff).mp hmf.1
    refine ⟨i, hient, by simpa using hmf.2, ?_⟩
    rw [zipRead_nodup entries hn i hient]
  · rintro ⟨i, hi, hdir, rfl⟩
    unfold repack_zip_deterministic
    refine List.mem_map.mpr ⟨i, ?_, ?_⟩
    · exact List.mem_filter.mpr
        ⟨((List.perm_insertionSort entryLe entries).mem_iff).mpr hi, by simp [hdir]⟩
    · rw [zipRead_nodup entries hn i hi]

/-- C10 witness: a unique-name archive with a directory entry and a file
entry; the repacked archive holds exactly the rewritten file entry. -/
theorem repack_entries_spec_witness :
    ((mixedEntries.map ZipEntry.filename).Nodup) ∧
    ((⟨"b.txt", fixedDateTime, 8, [5]⟩ : ZipEntry) ∈ repack_zip_deterministic mixedEntries ↔
      ∃ i, i ∈ mixedEntries ∧ zipIsDir i = false ∧
        (⟨"b.txt", fixedDateTime, 8, [5]⟩ : ZipEntry)
          = ⟨i.filename, fixedDateTime, i.extAttr, i.data⟩) :=
  ⟨by decide, repack_entries_spec mixedEntries (by decide) _⟩

/-- C8: the claim asserts that when signing is requested and neither a
thumbprint nor a certificate file is supplied, a configuration error is
raised before any process is launched, on every platform.  On a
non-Windows host maybe_sign_windows returns at the os.name guard
(release.py:65-67) without raising anything, refuting the every-platform
part. -/
theorem sign_nonwindows_counterexample :
    maybe_sign_windows "dist/aura-sentinel-app" true false true emptySignEnv
        = SignOutcome.skippedNotWindows ∧
    (maybe_sign_windows "dist/aura-sentinel-app" true false true emptySignEnv).isConfigError
        = false ∧
    (maybe_sign_windows "dist/aura-sentinel-app" true false true emptySignEnv).launchesProcess
        = false := by decide

/-- C8 (amended): on Windows, when the artifact exists and signing is
requested with neither a (non-empty) thumbprint nor a (non-empty)
certificate file supplied, the configuration error is raised and no
external process is launched; on other platforms signing is skipped
silently. -/
theorem sign_requires_credentials (path : String) (env : SignEnv)
    (h1 : truthy env.thumbprint = false) (h2 : truthy env.pfx = false) :
    maybe_sign_windows path true true true env
        = SignOutcome.configError "--sign requires either AURA_SIGN_THUMBPRINT (cert store) or AURA_SIGN_PFX + AURA_SIGN_PFX_PASSWORD" ∧
    (maybe_sign_windows path true true true env).launchesProcess = false := by
  constructor <;>
    simp [maybe_sign_windows, h1, h2, SignOutcome.launchesProcess]

/-- C8 witness: signing requested on Windows with an existing artifact and
an empty credential environment. -/
theorem sign_requires_credentials_witness :
    (truthy emptySignEnv.thumbprint = false ∧ truthy emptySignEnv.pfx = false) ∧
    (maybe_sign_windows "dist/aura-sentinel.msi" true true true emptySignEnv
        = SignOutcome.configError "--sign requires either AURA_SIGN_THUMBPRINT (cert store) or AURA_SIGN_PFX + AURA_SIGN_PFX_PASSWORD" ∧
     (maybe_sign_windows "dist/aura-sentinel.msi" true true true emptySignEnv).launchesProcess
        = false) :=
  ⟨⟨rfl, rfl⟩, sign_requires_credentials "dist/aura-sentinel.msi" emptySignEnv rfl rfl⟩

end Release

namespace BuildRelease

theorem lookup_setKey (k v k' : String) :
    ∀ e : List (String × String),
      lookupEnv (setKey e k v) k' = if k' = k then some v else lookupEnv e k'
  | [] => by
    by_cases hk : k' = k
    · subst hk; simp [setKey, lookupEnv]
    · simp [setKey, lookupEnv, hk, Ne.symm hk]
  | p :: rest => by
    by_cases hp : p.1 = k
    · by_cases hk : k' = k
      · subst hk; simp [setKey, lookupEnv, hp]
      · have hpk' : ¬ p.1 = k' := fun h => hk ((hp.symm.trans h).symm)
        simp [setKey, lookupEnv, hp, hk, Ne.symm hk, hpk']
    · by_cases hpk : p.1 = k'
      · have hk : ¬ k' = k := fun h => hp (hpk.trans h)
        simp [setKey, lookupEnv, hp, hpk, hk]
      · simp [setKey, lookupEnv, hp, hpk, lookup_setKey k v k' rest]

/-- Lookup in the updated dictionary: the last non-None override wins, and a
key with no (non-None) override keeps its value from the base
environment. -/
theorem lookup_dictUpdate :
    ∀ (items : List (String × Option String)) (e : List (String × String)) (k : String),
      lookupEnv (dictUpdate e items) k =
        match lastOverride items k with
        | some v => some v
        | none => lookupEnv e k
  | [], e, k => rfl
  | (k₁, ov) :: rest, e, k => by
    have hstep : dictUpdate e ((k₁, ov) :: rest)
        = dictUpdate (match ov with | some v => setKey e k₁ v | none => e) rest := rfl
    rw [hstep, lookup_dictUpdate rest _ k]
    rcases hlast : lastOverride rest k with _ | w
    · simp only [lastOverride, hlast]
      rcases ov with _ | v
      · simp
      · rw [lookup_setKey]
        by_cases hk : k = k₁
        · simp [hk]
        · have hk2 : ¬ k₁ = k := fun h => hk h.symm
          simp [hk, hk2]
    · simp [lastOverride, hlast]

/-- C9: the child environment run_command hands to the subprocess is the
ambient environment updated by the overrides, the override value winning on
every key collision (for a dict of overrides, the value at the key), while
keys without an override keep their ambient value, and the ambient
environment object itself comes back unchanged from the call. -/
theorem run_command_env (ambient : List (String × String))
    (overrides : List (String × Option String)) :
    (∀ k v, lastOverride overrides k = some v →
      lookupEnv (run_command ambient overrides).1 k = some v) ∧
    (∀ k, lastOverride overrides k = none →
      lookupEnv (run_command ambient overrides).1 k = lookupEnv ambient k) ∧
    (run_command ambient overrides).2 = ambient := by
  refine ⟨?_, ?_, rfl⟩
  · intro k v h
    show lookupEnv (merged_env ambient overrides) k = some v
    rw [merged_env, lookup_dictUpdate, h]
  · intro k h
    show lookupEnv (merged_env ambient overrides) k = lookupEnv ambient k
    rw [merged_env, lookup_dictUpdate, h]

/-- C9 witness: a colliding key takes the override value, an untouched key
keeps its ambient value, and the ambient environment is returned intact. -/
theorem run_command_env_witness :
    (lastOverride c9Overrides "PATH" = some "/opt/jdk/bin" ∧
     lastOverride c9Overrides "HOME" = none) ∧
    (lookupEnv (run_command c9Ambient c9Overrides).1 "PATH" = some "/opt/jdk/bin" ∧
     lookupEnv (run_command c9Ambient c9Overrides).1 "HOME" = lookupEnv c9Ambient "HOME" ∧
     (run_command c9Ambient c9Overrides).2 = c9Ambient) :=
  ⟨⟨by decide, by decide⟩,
   (run_command_env c9Ambient c9Overrides).1 "PATH" "/opt/jdk/bin" (by decide),
   (run_command_env c9Ambient c9Overrides).2.1 "HOME" (by decide),
   (run_command_env c9Ambient c9Overrides).2.2⟩

end BuildRelease

namespace BuildRelease

/-- C2: the claim requires that any recorded failure, including an unknown
step name, yields a nonzero exit status, and in particular that an
all-unknown selection does not exit 0.  In the code, an unknown key is
appended to failed_steps through _step_failed (build_release.py:1156) but
the failed_count counter that alone decides the exit status
(build_release.py:1175) is not incremented, so a selection consisting of one
unknown key records a failure yet exits 0 — whatever the step actions would
do. -/
theorem run_selected_unknown_exit_zero (results : String → StepResult) :
    run_selected_steps results ["bogus"]
        = (⟨[("args", "Unknown step: bogus")], [], 0⟩, 0) ∧
    (run_selected_steps results ["bogus"]).1.failedSteps ≠ [] ∧
    (run_selected_steps results ["bogus"]).2 = 0 := by
  refine ⟨rfl, List.cons_ne_nil _ _, rfl⟩

/-- C6: the claim says a file directly under the root directory is recorded
with category "root".  For such a file rel_path.parts is the one-element
list holding the file name, never the empty list the code's fallback tests
for (build_release.py:1048), so the recorded category is the file's own
name: for README.md of size 5 directly under dist-release the code records
category "README.md", not "root".  The subdirectory half of the claim and
the recorded size hold. -/
theorem manifest_top_level_category :
    generate_manifest [⟨["README.md"], 5⟩]
        = [⟨"README.md", "README.md", 5⟩] ∧
    ¬ ("README.md" = "root") ∧
    (∀ (top name : String) (sz : Nat),
      generate_manifest [⟨[top, name], sz⟩]
        = [⟨top, top ++ "/" ++ name, sz⟩]) := by
  refine ⟨by decide, by decide, ?_⟩
  intro top name sz
  simp [generate_manifest, category, String.intercalate, String.intercalate.go]

end BuildRelease

namespace GradleSetup

/-- C3: the claim asserts that after the fatal step fails, every subsequent
selected step is recorded with the distinct status Skipped.  In
setup_and_build the break after a Build APK failure
(setup_gradle_and_build_apk.py:253) just leaves the loop: nothing at all is
recorded for the abandoned Copy to Distribution step, so no Skipped record
exists; the exit status is 1 as claimed. -/
theorem setup_no_skipped_record :
    ("Copy to Distribution", StepOutcome.skipped)
        ∉ (setup_and_build apkFailResults).outcomes ∧
    (setup_and_build apkFailResults).exitCode = 1 := by decide

/-- C3 (amended): whenever the Build APK step fails or raises, the
subsequent Copy to Distribution step is not executed and receives no record
of any kind, and the run's exit status is nonzero; no Skipped status is
recorded because the code records nothing for abandoned steps. -/
theorem setup_fatal_stops_run (results : String → BuildRelease.StepResult)
    (h : results "Build APK" ≠ .ok) :
    "Copy to Distribution" ∉ ((setup_and_build results).outcomes.map Prod.fst) ∧
    (setup_and_build results).exitCode = 1 := by
  rcases h1 : results "Download Gradle" with _ | _ | m1 <;>
  rcases h2 : results "Extract Gradle" with _ | _ | m2 <;>
  rcases h3 : results "Generate Wrapper" with _ | _ | m3 <;>
  rcases h4 : results "Verify Wrapper" with _ | _ | m4 <;>
  rcases h5 : results "Build APK" with _ | _ | m5 <;>
  simp_all [setup_and_build, runSteps, gradleSteps]

/-- C3 witness: the run where only Build APK fails. -/
theorem setup_fatal_stops_run_witness :
    (apkFailResults "Build APK" ≠ BuildRelease.StepResult.ok) ∧
    ("Copy to Distribution" ∉ ((setup_and_build apkFailResults).outcomes.map Prod.fst) ∧
     (setup_and_build apkFailResults).exitCode = 1) :=
  ⟨by decide, setup_fatal_stops_run apkFailResults (by decide)⟩

end GradleSetup

namespace BuildRelease

/-- C7: the claim asserts that a second resolution request for a tool
performs zero further acquisition attempts.  ensure_jdk keeps no memoization
guard: with a valid JAVA_HOME the first call succeeds after one probe, and a
second call in the same run probes the environment variable again (one
further acquisition attempt, not zero). -/
theorem ensure_jdk_reprobe_counterexample :
    (ensure_jdk jdkEnvState).ok = true ∧
    (ensure_jdk (ensure_jdk jdkEnvState).state).attempts = 1 ∧
    ¬ ((ensure_jdk (ensure_jdk jdkEnvState).state).attempts = 0) :=
  ⟨rfl, rfl, by decide⟩

/-- C7 (amended): after a successful resolution, a second call re-runs the
probe sequence (at least one further acquisition attempt) but, thanks to the
on-disk caches under .tools/ and the unchanged environment, it succeeds
again and resolves the identical toolchain location. -/
theorem ensure_jdk_second_call (s : JdkState)
    (h : (ensure_jdk s).ok = true) :
    (ensure_jdk (ensure_jdk s).state).ok = true ∧
    (ensure_jdk (ensure_jdk s).state).state.javaHome = (ensure_jdk s).state.javaHome ∧
    1 ≤ (ensure_jdk (ensure_jdk s).state).attempts := by
  by_cases c1 : (s.envJavaHome.isSome && s.javaHomeHasJava) = true
  · simp [ensure_jdk, c1]
  · by_cases c2 : s.whichJava = true
    · simp [ensure_jdk, c1, c2]
    · by_cases c3 : s.zipCached = true
      · by_cases c4 : s.rootExtracted = true
        · by_cases c5 : s.extractedHasJava = true
          · simp [ensure_jdk, finishExtract, checkJavaBin, c1, c2, c3, c4, c5]
          · simp [ensure_jdk, finishExtract, checkJavaBin, c1, c2, c3, c4, c5] at h
        · by_cases c6 : s.extractOk = true
          · by_cases c5 : s.extractedHasJava = true
            · simp [ensure_jdk, finishExtract, checkJavaBin, c1, c2, c3, c4, c5, c6]
            · simp [ensure_jdk, finishExtract, checkJavaBin, c1, c2, c3, c4, c5, c6] at h
          · simp [ensure_jdk, finishExtract, checkJavaBin, c1, c2, c3, c4, c6] at h
      · rcases hf : firstTrue
            (((match s.auraJdkUrl with | some u => [u] | none => []) ++ fixedJdkUrls).map
              s.downloadOk) with _ | i
        all_goals
          have hf' : firstTrue
              (List.map s.downloadOk (match s.auraJdkUrl with | some u => [u] | none => [])
                ++ List.map s.downloadOk fixedJdkUrls)
              = firstTrue
                (((match s.auraJdkUrl with | some u => [u] | none => []) ++ fixedJdkUrls).map
                  s.downloadOk) := by
            rw [← List.map_append]
        · rw [hf] at hf'
          by_cases c7 : (s.isWindowsNt && s.whichWinget) = true
          · by_cases c8 : (s.wingetOk && s.wingetInstallsJava) = true
            · have hw : s.wingetOk = true ∧ s.wingetInstallsJava = true := by
                simpa using c8
              simp [ensure_jdk, c1, c2, c3, hf, hf', c7, c8, hw.1, hw.2]
            · simp [ensure_jdk, c1, c2, c3, hf, hf', c7, c8] at h
          · simp [ensure_jdk, c1, c2, c3, hf, hf', c7] at h
        · rw [hf] at hf'
          by_cases c4 : s.rootExtracted = true
          · by_cases c5 : s.extractedHasJava = true
            · simp [ensure_jdk, finishExtract, checkJavaBin, c1, c2, c3, hf, hf', c4, c5]
            · simp [ensure_jdk, finishExtract, checkJavaBin, c1, c2, c3, hf, hf', c4, c5] at h
          · by_cases c6 : s.extractOk = true
            · by_cases c5 : s.extractedHasJava = true
              · simp [ensure_jdk, finishExtract, checkJavaBin, c1, c2, c3, hf, hf', c4, c5, c6]
              · simp [ensure_jdk, finishExtract, checkJavaBin, c1, c2, c3, hf, hf', c4, c5, c6] at h
            · simp [ensure_jdk, finishExtract, checkJavaBin, c1, c2, c3, hf, hf', c4, c6] at h

/-- C7 witness: the JAVA_HOME-wins state; both calls succeed with one probe
each and resolve the same location. -/
theorem ensure_jdk_second_call_witness :
    ((ensure_jdk jdkEnvState).ok = true) ∧
    ((ensure_jdk (ensure_jdk jdkEnvState).state).ok = true ∧
     (ensure_jdk (ensure_jdk jdkEnvState).state).state.javaHome
        = (ensure_jdk jdkEnvState).state.javaHome ∧
     1 ≤ (ensure_jdk (ensure_jdk jdkEnvState).state).attempts) :=
  ⟨rfl, ensure_jdk_second_call jdkEnvState rfl⟩

end BuildRelease
